import Mathlib

/-!
Shallow embedding of scripts/with-timeout.py: a supervisor that runs a
command with an idle timeout and a hard timeout while relaying the child
stdout/stderr lines to its own matching streams.

Operating-system interactions (clock samples, stream readiness, poll
results, signal delivery, drained output, the child return code) are
modelled as explicit oracle inputs; the control flow of the Python code is
translated branch by branch.
-/

namespace WithTimeout

/-- Which child stream a relayed line was read from. -/
inductive StreamTag
  | stdout
  | stderr
  deriving DecidableEq, Repr

/-- One selector readiness event inside a loop iteration: the stream that
signalled, the line returned by readline (the empty string models EOF,
which is falsy in Python and relays nothing), and the clock value sampled
when the line was read (the update of the last-output time). -/
structure Event where
  stream : StreamTag
  line : String
  now : ℚ
  deriving DecidableEq, Repr

/-- The oracle inputs consumed by one iteration of the monitoring loop:
the clock sample at the hard-timeout check, the selector events delivered
by the 1-second readiness wait, the poll result after relaying events, the
clock sample at the idle-timeout check, and the poll result on the
no-output branch. -/
structure IterInput where
  nowTop : ℚ
  events : List Event
  pollAfterEvents : Option Int
  nowIdle : ℚ
  pollNoEvents : Option Int
  deriving DecidableEq, Repr

/-- How the monitoring loop exited: one of the two timeout breaks, or one
of the two child-exited breaks (after relaying events, or on a quiet tick). -/
inductive ExitReason
  | hardTimeout
  | idleTimeout
  | childExitedEvents
  | childExitedIdle
  deriving DecidableEq, Repr

/-- The observable outcome of the monitoring loop: the timed-out flag, the
branch that broke the loop, the lines written to the supervisor stdout and
stderr (in write order), and the full list of selector events the loop
consumed (in read order, empty readline results included). -/
structure LoopResult where
  timedOut : Bool
  reason : ExitReason
  stdoutLines : List String
  stderrLines : List String
  processed : List Event
  deriving DecidableEq, Repr

/-- The inner for-loop over ready selector events: each nonempty line
updates the last-output time and is appended to the accumulator of its own
stream; an empty readline result (EOF) changes nothing. Accumulators are
kept reversed. -/
def processEvents : List Event → ℚ → List String → List String →
    ℚ × List String × List String
  | [], last, o, e => (last, o, e)
  | ev :: rest, last, o, e =>
    if ev.line ≠ "" then
      match ev.stream with
      | .stdout => processEvents rest ev.now (ev.line :: o) e
      | .stderr => processEvents rest ev.now o (ev.line :: e)
    else
      processEvents rest last o e

/-- The monitoring loop of run_with_timeouts, one IterInput per iteration.
Branches, in source order: the hard-timeout check at the top of the loop
(enabled when hard_sec is truthy, that is nonzero); the events branch
(relay ready lines, then break if the child exited); the quiet branch (the
idle-timeout check, enabled when idle_sec is nonzero, then break if the
child exited). Returns none when the supplied iteration trace runs out
before the loop breaks. -/
def loopGo (hard idle : Int) (start : ℚ) :
    ℚ → List String → List String → List Event → List IterInput → Option LoopResult
  | _, _, _, _, [] => none
  | last, o, e, p, it :: rest =>
    if hard ≠ 0 ∧ it.nowTop - start > (hard : ℚ) then
      some ⟨true, .hardTimeout, o.reverse, e.reverse, p.reverse⟩
    else if it.events ≠ [] then
      let r := processEvents it.events last o e
      let p' := it.events.reverse ++ p
      if it.pollAfterEvents.isSome then
        some ⟨false, .childExitedEvents, r.2.1.reverse, r.2.2.reverse, p'.reverse⟩
      else
        loopGo hard idle start r.1 r.2.1 r.2.2 p' rest
    else
      if idle ≠ 0 ∧ it.nowIdle - last > (idle : ℚ) then
        some ⟨true, .idleTimeout, o.reverse, e.reverse, p.reverse⟩
      else if it.pollNoEvents.isSome then
        some ⟨false, .childExitedIdle, o.reverse, e.reverse, p.reverse⟩
      else
        loopGo hard idle start last o e p rest

/-- Python `proc.returncode or 0`: None and 0 are falsy and give 0, any
other return code passes through. -/
def pyOr : Option Int → Int
  | none => 0
  | some c => if c = 0 then 0 else c

/-- Signals the supervisor may direct at the child process group. -/
inductive Sig
  | SIGTERM
  | SIGKILL
  deriving DecidableEq, Repr

/-- The Python exceptions the signalling code distinguishes. -/
inductive PyErr
  | processLookup
  deriving DecidableEq, Repr

/-- os.killpg on the child process group: delivers the signal when the
group still exists, raises ProcessLookupError when it is already gone. -/
def killpg (groupAlive : Bool) (sig : Sig) : Except PyErr Sig :=
  if groupAlive then .ok sig else .error .processLookup

/-- kill_tree: sends the signal to the whole process group and swallows
ProcessLookupError; returns the delivered signal when there was one. -/
def kill_tree (groupAlive : Bool) (sig : Sig) : Except PyErr (Option Sig) :=
  match killpg groupAlive sig with
  | .ok s => .ok (some s)
  | .error .processLookup => .ok none

/-- The grace-wait for-loop (range 10): each round polls the child; a
non-None poll breaks, otherwise the loop sleeps 0.2 seconds and goes on.
Inputs are the successive poll results (a missing entry means the child is
still running); the outputs are whether an exit was observed and how many
0.2-second sleeps were performed. -/
def graceLoop : List (Option Int) → Nat → Bool × Nat
  | _, 0 => (false, 0)
  | [], n + 1 =>
    let r := graceLoop [] n
    (r.1, r.2 + 1)
  | poll :: rest, n + 1 =>
    if poll.isSome then (true, 0)
    else
      let r := graceLoop rest n
      (r.1, r.2 + 1)

/-- What the termination phase produced: the killpg calls attempted
against the child process group, in order, and the number of 0.2-second
grace sleeps. -/
structure TermResult where
  signals : List Sig
  sleeps : Nat
  deriving DecidableEq, Repr

/-- The termination phase of run_with_timeouts: runs only when the loop
timed out and the guard poll still shows the child alive. It attempts
killpg SIGTERM on the group; if that call raises, the except handler falls
back to kill_tree SIGKILL. Otherwise it runs the grace-wait loop and, when
a fresh poll still shows no exit status, sends kill_tree SIGKILL. -/
def terminate (timedOut : Bool) (pollGuard : Option Int) (termRaises : Bool)
    (gracePolls : List (Option Int)) (pollAfterGrace : Option Int) : TermResult :=
  if timedOut = true ∧ pollGuard = none then
    if termRaises then ⟨[.SIGTERM, .SIGKILL], 0⟩
    else
      let g := graceLoop gracePolls 10
      if pollAfterGrace = none then ⟨[.SIGTERM, .SIGKILL], g.2⟩
      else ⟨[.SIGTERM], g.2⟩
  else ⟨[], 0⟩

/-- Launch failures subprocess.Popen can raise; run_with_timeouts has no
handler for them, so they propagate to the caller. -/
inductive LaunchErr
  | fileNotFound
  | permissionDenied
  deriving DecidableEq, Repr

/-- The oracle describing one concrete run: the launch outcome, the clock
at launch, the per-iteration inputs of the monitoring loop, the inputs of
the termination phase, the drained (out, err) text from communicate (none
when communicate raises and the except clause drops the drain), and the
final child return code. -/
structure World where
  launch : Except LaunchErr Unit
  start : ℚ
  trace : List IterInput
  pollGuard : Option Int
  termRaises : Bool
  gracePolls : List (Option Int)
  pollAfterGrace : Option Int
  drain : Option (String × String)
  returncode : Option Int

/-- Everything observable about one completed run_with_timeouts call. -/
structure RunOutcome where
  exitCode : Int
  timedOut : Bool
  signals : List Sig
  sleeps : Nat
  loopStdout : List String
  loopStderr : List String
  processed : List Event
  drainStdout : String
  drainStderr : String
  deriving DecidableEq, Repr

/-- run_with_timeouts: launch (a failure propagates), run the monitoring
loop from last = start, run the termination phase, drain remaining output
to the matching streams, and return 124 when timed out, otherwise the
child return code with None treated as 0. Returns none when the iteration
trace ends before the loop breaks. -/
def run_with_timeouts (hard idle : Int) (w : World) :
    Option (Except LaunchErr RunOutcome) :=
  match w.launch with
  | .error err => some (.error err)
  | .ok () =>
    match loopGo hard idle w.start w.start [] [] [] w.trace with
    | none => none
    | some lr =>
      let t := terminate lr.timedOut w.pollGuard w.termRaises w.gracePolls w.pollAfterGrace
      let dO := match w.drain with
        | some d => d.1
        | none => ""
      let dE := match w.drain with
        | some d => d.2
        | none => ""
      let ex : Int := if lr.timedOut then 124 else pyOr w.returncode
      some (.ok ⟨ex, lr.timedOut, t.signals, t.sleeps,
        lr.stdoutLines, lr.stderrLines, lr.processed, dO, dE⟩)

/-- Project a run down to its exit code. -/
def exitOf (o : Option (Except LaunchErr RunOutcome)) : Option (Except LaunchErr Int) :=
  o.map (Except.map RunOutcome.exitCode)

/-- Python truthiness of the cmd variable in main: None and the empty list
are falsy. -/
def pyTruthy : Option (List String) → Bool
  | none => false
  | some l => !l.isEmpty

/-- The elements of argv after the first literal double-dash separator;
the empty list when there is none. -/
def afterDashdash : List String → List String
  | [] => []
  | a :: rest => if a = "--" then rest else afterDashdash rest

/-- What main did: print the usage message to stderr and return the given
code, or launch the command and call sys.exit with the run result. -/
inductive MainStep
  | usage (code : Int)
  | launched (cmd : List String) (rc : Int)
  deriving DecidableEq, Repr

/-- The command-extraction and dispatch logic of main: take the remainder
captured by the double-dash option (stripping a leading separator), fall
back to splitting argv at the first separator when that was falsy, and
report a usage error with return value 2 when no command resulted;
otherwise run the command. runRC abstracts the run_with_timeouts result. -/
def main (dashdash : Option (List String)) (argv : List String)
    (runRC : List String → Int) : MainStep :=
  let cmd0 : Option (List String) :=
    match dashdash with
    | none => none
    | some [] => none
    | some (h :: t) => some (if h = "--" then t else h :: t)
  let cmd1 : Option (List String) :=
    if pyTruthy cmd0 then cmd0
    else if argv.contains "--" then some (afterDashdash argv)
    else cmd0
  if pyTruthy cmd1 then
    let c := cmd1.getD []
    .launched c (runRC c)
  else
    .usage 2

/-- The process exit status produced by the module guard: in the launched
path main calls sys.exit with the run result, but in the usage path main
merely returns 2, the guard discards that return value, and the
interpreter exits 0. -/
def scriptExit (dashdash : Option (List String)) (argv : List String)
    (runRC : List String → Int) : Int :=
  match main dashdash argv runRC with
  | .usage _ => 0
  | .launched _ rc => rc

/-- The nonempty lines among a list of events that came from the child
stdout, in read order. -/
def stdoutOf : List Event → List String
  | [] => []
  | ev :: rest =>
    if ev.stream = .stdout ∧ ev.line ≠ "" then ev.line :: stdoutOf rest
    else stdoutOf rest

/-- The nonempty lines among a list of events that came from the child
stderr, in read order. -/
def stderrOf : List Event → List String
  | [] => []
  | ev :: rest =>
    if ev.stream = .stderr ∧ ev.line ≠ "" then ev.line :: stderrOf rest
    else stderrOf rest

/-- Project a successful run to its outcome record (placeholder record on
a launch failure or an exhausted trace). -/
def runOutcomeOf (o : Option (Except LaunchErr RunOutcome)) : RunOutcome :=
  match o with
  | some (.ok r) => r
  | _ => ⟨0, false, [], 0, [], [], [], "", ""⟩

/-- Fixture: a stdout line read at clock 1. -/
def evA : Event := ⟨.stdout, "a\n", 1⟩

/-- Fixture: a stderr line read at clock 2. -/
def evB : Event := ⟨.stderr, "b\n", 2⟩

/-- Fixture: an iteration whose top-of-loop clock is 5, with a ready
stdout line. -/
def itHard : IterInput := ⟨5, [evA], none, 5, none⟩

/-- Fixture: a run that hard-times-out on its first iteration while the
child later reports return code 7. -/
def wHard : World := ⟨.ok (), 0, [itHard], none, false, [], none, some ("tail\n", ""), some 7⟩

/-- Fixture: an iteration that relays one stdout and one stderr line and
then observes the child exited. -/
def itChild : IterInput := ⟨1, [evA, evB], some 3, 1, none⟩

/-- Fixture: a run whose child exits by itself with return code 3. -/
def wChild : World := ⟨.ok (), 0, [itChild], some 3, false, [], some 3, some ("", ""), some 3⟩

/-- Fixture: a run whose child exited but whose return code reads None at
result time. -/
def wChildNone : World := ⟨.ok (), 0, [itChild], some 0, false, [], some 0, some ("", ""), none⟩

/-- Fixture: a run whose command fails to launch. -/
def wLaunch : World := ⟨.error .fileNotFound, 0, [], none, false, [], none, none, none⟩

/-- Fixture: a first iteration at clock 0 whose child would exit at once
with return code 0. -/
def itNeg : IterInput := ⟨0, [evA], some 0, 0, none⟩

/-- Fixture: a run invoked with a negative hard timeout against a child
that would exit immediately with return code 0. -/
def wNeg : World := ⟨.ok (), 0, [itNeg], none, false, [], none, some ("", ""), some 0⟩

/-- Fixture: a quiet iteration: no events ready, idle clock at 4. -/
def itQuiet : IterInput := ⟨1, [], none, 4, none⟩

/-- Project an optional loop result (placeholder on an exhausted trace). -/
def loopResultOf (o : Option LoopResult) : LoopResult :=
  match o with
  | some lr => lr
  | none => ⟨false, .childExitedIdle, [], [], []⟩

lemma stdoutOf_append (a b : List Event) : stdoutOf (a ++ b) = stdoutOf a ++ stdoutOf b := by
  induction a with
  | nil => simp [stdoutOf]
  | cons ev rest ih =>
    by_cases h : ev.stream = .stdout ∧ ev.line ≠ "" <;>
      simp [stdoutOf, h, ih]

lemma stderrOf_append (a b : List Event) : stderrOf (a ++ b) = stderrOf a ++ stderrOf b := by
  induction a with
  | nil => simp [stderrOf]
  | cons ev rest ih =>
    by_cases h : ev.stream = .stderr ∧ ev.line ≠ "" <;>
      simp [stderrOf, h, ih]

lemma processEvents_eq (evts : List Event) : ∀ (last : ℚ) (o e : List String),
    (processEvents evts last o e).2.1 = (stdoutOf evts).reverse ++ o ∧
    (processEvents evts last o e).2.2 = (stderrOf evts).reverse ++ e := by
  induction evts with
  | nil => intro last o e; simp [processEvents, stdoutOf, stderrOf]
  | cons ev rest ih =>
    intro last o e
    by_cases hl : ev.line = ""
    · simpa [processEvents, stdoutOf, stderrOf, hl] using ih last o e
    · cases hs : ev.stream with
      | stdout =>
        have := ih ev.now (ev.line :: o) e
        simp [processEvents, stdoutOf, stderrOf, hl, hs] at this ⊢
        exact ⟨this.1, this.2⟩
      | stderr =>
        have := ih ev.now o (ev.line :: e)
        simp [processEvents, stdoutOf, stderrOf, hl, hs] at this ⊢
        exact ⟨this.1, this.2⟩

/-- Decomposition of a finished monitoring loop relative to the
accumulators: the result extends the already-accumulated lines with
exactly the per-stream nonempty lines of the newly processed events, in
read order. -/
lemma loopGo_decomp (hard idle : Int) (start : ℚ) :
    ∀ (tr : List IterInput) (last : ℚ) (o e : List String) (p : List Event) (lr : LoopResult),
      loopGo hard idle start last o e p tr = some lr →
      ∃ q, lr.processed = p.reverse ++ q ∧
        lr.stdoutLines = o.reverse ++ stdoutOf q ∧
        lr.stderrLines = e.reverse ++ stderrOf q := by
  intro tr
  induction tr with
  | nil => intro last o e p lr h; simp [loopGo] at h
  | cons it rest ih =>
    intro last o e p lr h
    simp only [loopGo] at h
    split_ifs at h with h1 h2 h3 h4 h5
    · obtain rfl := (Option.some.injEq _ _).mp h |>.symm
      exact ⟨[], by simp [stdoutOf, stderrOf]⟩
    · obtain rfl := (Option.some.injEq _ _).mp h |>.symm
      refine ⟨it.events, ?_, ?_, ?_⟩ <;>
        simp [(processEvents_eq it.events last o e).1,
          (processEvents_eq it.events last o e).2]
    · obtain ⟨q', hq, ho, he⟩ := ih _ _ _ _ _ h
      refine ⟨it.events ++ q', ?_, ?_, ?_⟩
      · simpa [List.append_assoc] using hq
      · rw [ho, (processEvents_eq it.events last o e).1]
        simp [stdoutOf_append, List.append_assoc]
      · rw [he, (processEvents_eq it.events last o e).2]
        simp [stderrOf_append, List.append_assoc]
    · obtain rfl := (Option.some.injEq _ _).mp h |>.symm
      exact ⟨[], by simp [stdoutOf, stderrOf]⟩
    · obtain rfl := (Option.some.injEq _ _).mp h |>.symm
      exact ⟨[], by simp [stdoutOf, stderrOf]⟩
    · exact ih _ _ _ _ _ h

/-- The timed-out flag of a finished loop holds exactly on the two timeout
reasons, and each timeout reason implies its policy was enabled
(nonzero). -/
lemma loopGo_reason (hard idle : Int) (start : ℚ) :
    ∀ (tr : List IterInput) (last : ℚ) (o e : List String) (p : List Event) (lr : LoopResult),
      loopGo hard idle start last o e p tr = some lr →
      (lr.timedOut = true ↔ lr.reason = .hardTimeout ∨ lr.reason = .idleTimeout) ∧
      (lr.reason = .hardTimeout → hard ≠ 0) ∧
      (lr.reason = .idleTimeout → idle ≠ 0) := by
  intro tr
  induction tr with
  | nil => intro last o e p lr h; simp [loopGo] at h
  | cons it rest ih =>
    intro last o e p lr h
    simp only [loopGo] at h
    split_ifs at h with h1 h2 h3 h4 h5
    · obtain rfl := (Option.some.injEq _ _).mp h |>.symm
      simpa using h1.1
    · obtain rfl := (Option.some.injEq _ _).mp h |>.symm
      simp
    · exact ih _ _ _ _ _ h
    · obtain rfl := (Option.some.injEq _ _).mp h |>.symm
      simpa using h4.1
    · obtain rfl := (Option.some.injEq _ _).mp h |>.symm
      simp
    · exact ih _ _ _ _ _ h

/-- The grace-wait loop never sleeps more often than its fuel allows. -/
lemma graceLoop_sleeps_le (polls : List (Option Int)) (n : Nat) :
    (graceLoop polls n).2 ≤ n := by
  induction n generalizing polls with
  | zero => cases polls <;> simp [graceLoop]
  | succ m ih =>
    cases polls with
    | nil => simpa [graceLoop] using ih []
    | cons poll rest =>
      by_cases h : poll.isSome
      · simp [graceLoop, h]
      · have hr := ih rest
        simp [graceLoop, h]
        omega

/-- Claim C1: for every run in which the monitoring loop marked the run as
timed out (idle or hard), run_with_timeouts returns the reserved exit
status 124, regardless of the child return code (which is universally
quantified here through the world). -/
theorem timeout_returns_124 (hard idle : Int) (w : World) (r : RunOutcome)
    (hrun : run_with_timeouts hard idle w = some (.ok r))
    (ht : r.timedOut = true) : r.exitCode = 124 := by
  unfold run_with_timeouts at hrun
  cases hL : w.launch with
  | error err =>
    rw [hL] at hrun
    simp at hrun
  | ok u =>
    cases u
    rw [hL] at hrun
    cases hG : loopGo hard idle w.start w.start [] [] [] w.trace with
    | none =>
      rw [hG] at hrun
      simp at hrun
    | some lr =>
      rw [hG] at hrun
      simp only [Option.some.injEq, Except.ok.injEq] at hrun
      subst hrun
      simp only [RunOutcome.timedOut] at ht
      simp [ht]

/-- Claim C1 witness: a run that hard-times-out while the child reports
return code 7 still exits 124. -/
theorem timeout_returns_124_witness :
    run_with_timeouts 1 0 wHard = some (.ok (runOutcomeOf (run_with_timeouts 1 0 wHard))) ∧
    (runOutcomeOf (run_with_timeouts 1 0 wHard)).timedOut = true ∧
    (runOutcomeOf (run_with_timeouts 1 0 wHard)).exitCode = 124 :=
  ⟨by with_unfolding_all rfl, by with_unfolding_all rfl,
    timeout_returns_124 1 0 wHard _ (by with_unfolding_all rfl) (by with_unfolding_all rfl)⟩

/-- Claim C2: when the loop broke because the child exited on its own
(either break on poll), the run is not marked timed out; and a run not
marked timed out returns the child exit code exactly, with a return code
that reads None treated as 0. -/
theorem child_exit_passthrough (hard idle : Int) (w : World) (r : RunOutcome)
    (hrun : run_with_timeouts hard idle w = some (.ok r)) :
    (∀ lr, loopGo hard idle w.start w.start [] [] [] w.trace = some lr →
        (lr.reason = .childExitedEvents ∨ lr.reason = .childExitedIdle) →
        lr.timedOut = false) ∧
    (r.timedOut = false →
      (∀ c, w.returncode = some c → r.exitCode = c) ∧
      (w.returncode = none → r.exitCode = 0)) := by
  constructor
  · intro lr hG hr
    have h := (loopGo_reason hard idle w.start w.trace w.start [] [] [] lr hG).1
    rcases hr with hr | hr <;>
      · rw [hr] at h
        cases hcontra : lr.timedOut
        · rfl
        · exact absurd (h.mp hcontra) (by simp [hr])
  · intro ht
    unfold run_with_timeouts at hrun
    cases hL : w.launch with
    | error err =>
      rw [hL] at hrun
      simp at hrun
    | ok u =>
      cases u
      rw [hL] at hrun
      cases hG : loopGo hard idle w.start w.start [] [] [] w.trace with
      | none =>
        rw [hG] at hrun
        simp at hrun
      | some lr =>
        rw [hG] at hrun
        simp only [Option.some.injEq, Except.ok.injEq] at hrun
        subst hrun
        simp only [RunOutcome.timedOut] at ht
        constructor
        · intro c hc
          by_cases hc0 : c = 0 <;> simp [ht, hc, pyOr, hc0]
        · intro hc
          simp [ht, hc, pyOr]

/-- Claim C2 witness: a child that exits by itself with return code 3
yields supervisor exit code 3, and a child-exited loop is never marked
timed out; a second application covers a None return code giving 0. -/
theorem child_exit_passthrough_witness :
    run_with_timeouts 100 5 wChild = some (.ok (runOutcomeOf (run_with_timeouts 100 5 wChild))) ∧
    (runOutcomeOf (run_with_timeouts 100 5 wChild)).exitCode = 3 ∧
    (runOutcomeOf (run_with_timeouts 100 5 wChildNone)).exitCode = 0 :=
  ⟨by with_unfolding_all rfl,
    ((child_exit_passthrough 100 5 wChild _ (by with_unfolding_all rfl)).2
      (by with_unfolding_all rfl)).1 3 (by with_unfolding_all rfl),
    ((child_exit_passthrough 100 5 wChildNone _ (by with_unfolding_all rfl)).2
      (by with_unfolding_all rfl)).2 (by with_unfolding_all rfl)⟩

/-- Claim C3, code evidence: on an invocation with no command, main
detects the usage error and returns 2 without launching (the usage
constructor), but the module guard discards the return value of main, so
the process exit status is 0, not the claimed 2. -/
theorem usage_error_exit_status :
    main none ["scripts/with-timeout.py"] (fun _ => 37) = .usage 2 ∧
    scriptExit none ["scripts/with-timeout.py"] (fun _ => 37) = 0 :=
  ⟨rfl, rfl⟩

/-- Claim C4: with the hard timeout enabled (positive), an iteration whose
top-of-loop clock is more than hard seconds past launch marks the run
hard-timed-out and exits the loop at once, whatever events the child has
ready; with hard equal to zero the hard-timeout reason can never occur. -/
theorem hard_timeout_check :
    (∀ (hard idle : Int) (start last : ℚ) (o e : List String) (p : List Event)
        (it : IterInput) (rest : List IterInput),
        0 < hard → it.nowTop - start > (hard : ℚ) →
        loopGo hard idle start last o e p (it :: rest) =
          some ⟨true, .hardTimeout, o.reverse, e.reverse, p.reverse⟩) ∧
    (∀ (idle : Int) (start last : ℚ) (o e : List String) (p : List Event)
        (tr : List IterInput) (lr : LoopResult),
        loopGo 0 idle start last o e p tr = some lr → lr.reason ≠ .hardTimeout) := by
  constructor
  · intro hard idle start last o e p it rest hpos hgt
    rw [loopGo, if_pos ⟨by omega, hgt⟩]
  · intro idle start last o e p tr lr h hres
    exact (loopGo_reason 0 idle start tr last o e p lr h).2.1 hres rfl

/-- Claim C4 witness: hard = 1 with the clock at 5 seconds past launch
times out on the first iteration even though a stdout line is ready. -/
theorem hard_timeout_check_witness :
    loopGo 1 0 0 0 [] [] [] [itHard] = some ⟨true, .hardTimeout, [], [], []⟩ :=
  hard_timeout_check.1 1 0 0 0 [] [] [] itHard [] (by decide)
    (by with_unfolding_all decide)

/-- Claim C5: the idle check fires only on an iteration with no ready
events: when idle is enabled (positive), no event is ready, the hard check
did not fire and the idle clock is more than idle seconds past the last
output, the loop exits marked idle-timed-out; with idle equal to zero the
idle-timeout reason can never occur; and on an iteration with ready events
the idle clock sample is never consulted. -/
theorem idle_timeout_check :
    (∀ (hard idle : Int) (start last : ℚ) (o e : List String) (p : List Event)
        (it : IterInput) (rest : List IterInput),
        0 < idle → it.events = [] →
        ¬(hard ≠ 0 ∧ it.nowTop - start > (hard : ℚ)) →
        it.nowIdle - last > (idle : ℚ) →
        loopGo hard idle start last o e p (it :: rest) =
          some ⟨true, .idleTimeout, o.reverse, e.reverse, p.reverse⟩) ∧
    (∀ (hard : Int) (start last : ℚ) (o e : List String) (p : List Event)
        (tr : List IterInput) (lr : LoopResult),
        loopGo hard 0 start last o e p tr = some lr → lr.reason ≠ .idleTimeout) ∧
    (∀ (hard idle : Int) (start last : ℚ) (o e : List String) (p : List Event)
        (it : IterInput) (rest : List IterInput) (t : ℚ),
        it.events ≠ [] →
        loopGo hard idle start last o e p ({ it with nowIdle := t } :: rest) =
          loopGo hard idle start last o e p (it :: rest)) := by
  refine ⟨?_, ?_, ?_⟩
  · intro hard idle start last o e p it rest hpos hev hhard hidle
    rw [loopGo, if_neg hhard, if_neg (by simp [hev]), if_pos ⟨by omega, hidle⟩]
  · intro hard start last o e p tr lr h hres
    exact (loopGo_reason hard 0 start tr last o e p lr h).2.2 hres rfl
  · intro hard idle start last o e p it rest t hev
    simp [loopGo, hev]

/-- Claim C5 witness: idle = 2 on a quiet iteration with the idle clock 4
seconds past the last output fires the idle timeout. -/
theorem idle_timeout_check_witness :
    loopGo 0 2 0 0 [] [] [] [itQuiet] = some ⟨true, .idleTimeout, [], [], []⟩ :=
  idle_timeout_check.1 0 2 0 0 [] [] [] itQuiet [] (by decide) rfl (by simp)
    (by with_unfolding_all decide)

/-- Claim C6: stream origin is preserved by the monitoring loop: the lines
it wrote to the supervisor stdout are exactly the nonempty lines read from
the child stdout, in read order, and likewise for stderr. -/
theorem stream_origin (hard idle : Int) (start last : ℚ) (tr : List IterInput)
    (lr : LoopResult) (h : loopGo hard idle start last [] [] [] tr = some lr) :
    lr.stdoutLines = stdoutOf lr.processed ∧ lr.stderrLines = stderrOf lr.processed := by
  obtain ⟨q, hq, ho, he⟩ := loopGo_decomp hard idle start tr last [] [] [] lr h
  simp only [List.reverse_nil, List.nil_append] at hq ho he
  rw [ho, he, hq]
  exact ⟨rfl, rfl⟩

/-- Claim C6 witness: a loop that relays one stdout and one stderr line
satisfies the per-stream projection equalities. -/
theorem stream_origin_witness :
    (loopResultOf (loopGo 100 5 0 0 [] [] [] [itChild])).stdoutLines =
      stdoutOf (loopResultOf (loopGo 100 5 0 0 [] [] [] [itChild])).processed ∧
    (loopResultOf (loopGo 100 5 0 0 [] [] [] [itChild])).stderrLines =
      stderrOf (loopResultOf (loopGo 100 5 0 0 [] [] [] [itChild])).processed :=
  stream_origin 100 5 0 0 [itChild] _ (by with_unfolding_all rfl)

/-- Claim C7: when the loop timed out and the guard poll shows the child
alive (and killpg itself does not raise), the protocol sends SIGTERM to
the process group first, sleeps in 0.2-second steps at most 10 times (at
most about 2 seconds), and sends SIGKILL only when the post-grace poll
still shows the child alive; when the loop did not time out or the child
already exited, no signal is sent at all. -/
theorem termination_protocol :
    (∀ (gracePolls : List (Option Int)) (pollAfter : Option Int),
        (terminate true none false gracePolls pollAfter).signals =
          .SIGTERM :: (if pollAfter = none then [.SIGKILL] else []) ∧
        (terminate true none false gracePolls pollAfter).sleeps ≤ 10) ∧
    (∀ (timedOut : Bool) (pollGuard : Option Int) (raises : Bool)
        (gracePolls : List (Option Int)) (pollAfter : Option Int),
        ¬(timedOut = true ∧ pollGuard = none) →
        (terminate timedOut pollGuard raises gracePolls pollAfter).signals = []) := by
  constructor
  · intro gracePolls pollAfter
    unfold terminate
    rw [if_pos ⟨rfl, rfl⟩]
    refine ⟨?_, ?_⟩ <;> by_cases hpa : pollAfter = none <;>
      simp [hpa, graceLoop_sleeps_le]
  · intro timedOut pollGuard raises gracePolls pollAfter hguard
    unfold terminate
    rw [if_neg hguard]

/-- Claim C7 witness: all grace polls still running and a post-grace poll
still alive give SIGTERM then SIGKILL within 10 sleeps; a loop that did
not time out sends nothing. -/
theorem termination_protocol_witness :
    (terminate true none false [] none).signals = [.SIGTERM, .SIGKILL] ∧
    (terminate true none false [] none).sleeps ≤ 10 ∧
    (terminate false none false [] none).signals = [] :=
  ⟨by simpa using (termination_protocol.1 [] none).1,
    (termination_protocol.1 [] none).2,
    termination_protocol.2 false none false [] none (by simp)⟩

/-- Claim C8: signalling failures are swallowed: kill_tree never
propagates an error, in particular when the process group is already gone;
and the computed exit status is unchanged under every termination-phase
input (guard poll, a raising killpg, grace polls, post-grace poll). -/
theorem signal_failures_swallowed :
    (∀ (groupAlive : Bool) (sig : Sig), (kill_tree groupAlive sig).isOk = true) ∧
    (∀ (hard idle : Int) (w : World) (pg : Option Int) (b : Bool)
        (g : List (Option Int)) (pa : Option Int),
        exitOf (run_with_timeouts hard idle
          { w with pollGuard := pg, termRaises := b, gracePolls := g, pollAfterGrace := pa }) =
          exitOf (run_with_timeouts hard idle w)) := by
  constructor
  · intro groupAlive sig
    cases groupAlive <;> rfl
  · intro hard idle w pg b g pa
    cases hL : w.launch with
    | error err => simp [run_with_timeouts, hL, exitOf]
    | ok u =>
      cases u
      cases hG : loopGo hard idle w.start w.start [] [] [] w.trace with
      | none => simp [run_with_timeouts, hL, hG, exitOf]
      | some lr =>
        simp only [run_with_timeouts, hL, hG, exitOf, Option.map]
        rfl

/-- Claim C9: a launch failure propagates out of run_with_timeouts as the
distinct error value, never as any ordinary exit outcome, so it cannot be
read as 124, as 0, or as a child exit code. -/
theorem launch_failure_distinct (hard idle : Int) (w : World) (err : LaunchErr)
    (h : w.launch = .error err) :
    run_with_timeouts hard idle w = some (.error err) ∧
    ∀ r : RunOutcome, run_with_timeouts hard idle w ≠ some (.ok r) := by
  have h1 : run_with_timeouts hard idle w = some (.error err) := by
    unfold run_with_timeouts
    rw [h]
  refine ⟨h1, fun r hr => ?_⟩
  rw [h1] at hr
  simp at hr

/-- Claim C9 witness: a file-not-found launch yields the error value and
is distinct from every ok outcome. -/
theorem launch_failure_distinct_witness :
    run_with_timeouts 0 0 wLaunch = some (.error .fileNotFound) ∧
    run_with_timeouts 0 0 wLaunch ≠ some (.ok (runOutcomeOf none)) :=
  ⟨(launch_failure_distinct 0 0 wLaunch .fileNotFound rfl).1,
    (launch_failure_distinct 0 0 wLaunch .fileNotFound rfl).2 (runOutcomeOf none)⟩

/-- Claim C10: a negative hard value counts as enabled and its condition
holds already on the first iteration (the clock never being before
launch), so the run exits 124 with no line relayed by the loop, whatever
the child would have returned; likewise a negative idle value fires on the
first iteration in which no output is ready. -/
theorem negative_timeout_fires :
    (∀ (hard idle : Int) (w : World) (it : IterInput) (rest : List IterInput),
        hard < 0 → w.launch = .ok () → w.trace = it :: rest → w.start ≤ it.nowTop →
        (run_with_timeouts hard idle w).map (Except.map (fun r =>
          (r.exitCode, r.timedOut, r.loopStdout, r.loopStderr))) =
          some (.ok (124, true, [], []))) ∧
    (∀ (hard idle : Int) (start last : ℚ) (o e : List String) (p : List Event)
        (it : IterInput) (rest : List IterInput),
        idle < 0 → it.events = [] →
        ¬(hard ≠ 0 ∧ it.nowTop - start > (hard : ℚ)) →
        last ≤ it.nowIdle →
        loopGo hard idle start last o e p (it :: rest) =
          some ⟨true, .idleTimeout, o.reverse, e.reverse, p.reverse⟩) := by
  have hcast : ∀ (n : Int), n < 0 → ((n : ℚ) < 0) := fun n hn => by exact_mod_cast hn
  constructor
  · intro hard idle w it rest hneg hL hT hle
    have hfire : it.nowTop - w.start > (hard : ℚ) :=
      lt_of_lt_of_le (hcast hard hneg) (sub_nonneg.mpr hle)
    have hG : loopGo hard idle w.start w.start [] [] [] w.trace =
        some ⟨true, .hardTimeout, [], [], []⟩ := by
      rw [hT, loopGo, if_pos ⟨by omega, hfire⟩]
      rfl
    unfold run_with_timeouts
    rw [hL, hG]
    rfl
  · intro hard idle start last o e p it rest hneg hev hhard hle
    have hfire : it.nowIdle - last > (idle : ℚ) :=
      lt_of_lt_of_le (hcast idle hneg) (sub_nonneg.mpr hle)
    rw [loopGo, if_neg hhard, if_neg (by simp [hev]), if_pos ⟨by omega, hfire⟩]

/-- Claim C10 witness: hard = -5 times out on the first iteration with no
loop output against a child that would exit at once with code 0, and
idle = -3 fires on the first quiet iteration. -/
theorem negative_timeout_fires_witness :
    (run_with_timeouts (-5) 0 wNeg).map (Except.map (fun r =>
      (r.exitCode, r.timedOut, r.loopStdout, r.loopStderr))) =
      some (.ok (124, true, [], [])) ∧
    loopGo 0 (-3) 0 0 [] [] [] [itQuiet] = some ⟨true, .idleTimeout, [], [], []⟩ :=
  ⟨negative_timeout_fires.1 (-5) 0 wNeg itNeg [] (by decide) rfl rfl
      (by with_unfolding_all decide),
    negative_timeout_fires.2 0 (-3) 0 0 [] [] [] itQuiet [] (by decide) rfl (by simp)
      (by with_unfolding_all decide)⟩

end WithTimeout
